import Mathlib

/-!
# FlakyFence — shallow embedding and verification

Shallow embedding of the core of `flakyfence.py` (test pollution bisection
and shared-state forensics):

* `StateSnapshot` / `StateSnapshot.diff` — snapshot of process env and loaded
  modules, with its structured diff (`flakyfence.py`, lines 8–25).
* `bisect_polluter` — binary delta-debugging over a suspect list
  (`flakyfence.py`, lines 28–41).
* `find_victims` — full-suite run, parse FAILED lines, re-run alone
  (`flakyfence.py`, lines 61–74).
* `analyze` — the orchestrator (`flakyfence.py`, lines 92–104).

The external test executor (`subprocess` + pytest in the Python code) is
modelled as an explicit `Executor` record of pure functions: the overall
success of the one full-suite run, its textual output lines, and a
pass/fail verdict for each ordered sequence of test ids
(`run_sequence`).  Python dictionaries (`os.environ`) are modelled as
association lists, Python sets as lists deduplicated at use sites, which
matches the "each key considered once" semantics of iterating a `set`.
-/

namespace FlakyFence

/-- One delta between two snapshots, as built in `StateSnapshot.diff`:
the four dictionary shapes `{"type": "env_added", ...}`,
`{"type": "env_removed", ...}`, `{"type": "env_changed", ...}` and
`{"type": "module_added", ...}`. -/
inductive StateChange where
  | env_added (key value : String)
  | env_removed (key : String)
  | env_changed (key old new : String)
  | module_added (mod : String)
deriving DecidableEq, Repr

/-- `StateSnapshot`: `self.env = dict(os.environ)` modelled as an association
list (first binding wins, as a dictionary has one value per key), and
`self.modules = set(sys.modules.keys())` modelled as a list of identifiers. -/
structure StateSnapshot where
  env : List (String × String)
  modules : List String
deriving DecidableEq, Repr

/-- Dictionary lookup `e[k]` on the association-list model. -/
def envLookup : List (String × String) → String → Option String
  | [], _ => none
  | (k, v) :: rest, q => if q = k then some v else envLookup rest q

/-- `set(e)` for a dict `e`: its keys, each once (`List.dedup`). -/
def envKeys (e : List (String × String)) : List String :=
  (e.map Prod.fst).dedup

/-- The value a dict holds at a key that is known to be present
(`after.env[k]`); defaults to `""` off the key set, which `diff` never
exercises. -/
def envGet (e : List (String × String)) (k : String) : String :=
  (envLookup e k).getD ""

/-- First loop of `diff`: `for k in set(after.env) - set(self.env)`, one
`env_added` per key of `after.env` missing from `before.env`. -/
def envAddedPart (before after : StateSnapshot) : List StateChange :=
  ((envKeys after.env).filter
      (fun k => decide (k ∉ envKeys before.env))).map
    (fun k => StateChange.env_added k (envGet after.env k))

/-- Second loop of `diff`: `for k in set(self.env) - set(after.env)`, one
`env_removed` per key of `before.env` missing from `after.env`. -/
def envRemovedPart (before after : StateSnapshot) : List StateChange :=
  ((envKeys before.env).filter
      (fun k => decide (k ∉ envKeys after.env))).map
    (fun k => StateChange.env_removed k)

/-- Third loop of `diff`: `for k in set(self.env) & set(after.env)`, one
`env_changed` per common key whose values differ. -/
def envChangedPart (before after : StateSnapshot) : List StateChange :=
  (((envKeys before.env).filter
      (fun k => decide (k ∈ envKeys after.env))).filter
      (fun k => decide (envGet before.env k ≠ envGet after.env k))).map
    (fun k => StateChange.env_changed k (envGet before.env k) (envGet after.env k))

/-- Fourth loop of `diff`: `for m in after.modules - self.modules`, one
`module_added` per module of `after.modules` missing from
`before.modules`.  Module removals are not reported. -/
def moduleAddedPart (before after : StateSnapshot) : List StateChange :=
  ((after.modules.dedup).filter
      (fun m => decide (m ∉ before.modules))).map
    (fun m => StateChange.module_added m)

/-- `StateSnapshot.diff` (`flakyfence.py`, lines 14–25): the `changes` list
accumulated by the four loops, in loop order. -/
def StateSnapshot.diff (before after : StateSnapshot) : List StateChange :=
  envAddedPart before after ++ envRemovedPart before after
    ++ envChangedPart before after ++ moduleAddedPart before after

/-- `bisect_polluter` (`flakyfence.py`, lines 28–41), with the probe runner
made an explicit argument (the Python default runner shells out to pytest;
`analyze` below supplies the corresponding closure over the executor):
lists of length ≤ 1 are returned as is; otherwise the list is split at
`mid = len // 2`, a failing (`false`) probe of the left half recurses left,
else a failing probe of the right half recurses right, else the whole
current list is returned. -/
def bisect_polluter (victim : String) (suspects : List String)
    (runner : List String → Bool) : List String :=
  if h : suspects.length ≤ 1 then suspects
  else if runner (suspects.take (suspects.length / 2)) = false then
    bisect_polluter victim (suspects.take (suspects.length / 2)) runner
  else if runner (suspects.drop (suspects.length / 2)) = false then
    bisect_polluter victim (suspects.drop (suspects.length / 2)) runner
  else suspects
termination_by suspects.length
decreasing_by
  · simp only [List.length_take]; omega
  · simp only [List.length_drop]; omega

/-- The sequence of subsets `bisect_polluter` hands to `runner`, in probe
order: the same recursion, recording each call site of `runner`
(`if not runner(left)`, `if not runner(right)`). -/
def bisect_probes (victim : String) (suspects : List String)
    (runner : List String → Bool) : List (List String) :=
  if h : suspects.length ≤ 1 then []
  else if runner (suspects.take (suspects.length / 2)) = false then
    suspects.take (suspects.length / 2)
      :: bisect_probes victim (suspects.take (suspects.length / 2)) runner
  else if runner (suspects.drop (suspects.length / 2)) = false then
    suspects.take (suspects.length / 2) :: suspects.drop (suspects.length / 2)
      :: bisect_probes victim (suspects.drop (suspects.length / 2)) runner
  else [suspects.take (suspects.length / 2), suspects.drop (suspects.length / 2)]
termination_by suspects.length
decreasing_by
  · simp only [List.length_take]; omega
  · simp only [List.length_drop]; omega

/-- The external test executor, as `find_victims` and `analyze` observe it:
the one full-suite `pytest` run (`subprocess.run` at lines 63–65) has an
overall verdict `suiteSuccess` (`returncode == 0`) and output lines
`suiteOutput` (`r.stdout.splitlines()`); every later invocation goes
through `run_sequence(tests, project)`, modelled as `runSeq`. -/
structure Executor where
  suiteSuccess : Bool
  suiteOutput : List String
  runSeq : List String → Bool

/-- `p` is a prefix of the character list. -/
def beginsWith : List Char → List Char → Bool
  | [], _ => true
  | _ :: _, [] => false
  | p :: ps, c :: cs => p == c && beginsWith ps cs

/-- Python's substring test `pat in line`, on character lists: `pat` occurs
contiguously somewhere. -/
def containsSeq (pat : List Char) : List Char → Bool
  | [] => beginsWith pat []
  | c :: cs => beginsWith pat (c :: cs) || containsSeq pat cs

/-- `line.split(" ")[0]`: the characters before the first space. -/
def firstToken : List Char → List Char
  | [] => []
  | c :: cs => if c = ' ' then [] else c :: firstToken cs

/-- Python's whitespace test used by `str.strip()`. -/
def isWS (c : Char) : Bool :=
  c == ' ' || c == '\t' || c == '\n' || c == '\r'

/-- Drop leading whitespace characters. -/
def dropWS : List Char → List Char
  | [] => []
  | c :: cs => if isWS c then dropWS cs else c :: cs

/-- `str.strip()`: whitespace removed from both ends. -/
def stripChars (l : List Char) : List Char :=
  dropWS ((dropWS l.reverse).reverse)

/-- Parsing of one output line of the full run (`flakyfence.py`, lines
69–71): a line containing `" FAILED"` yields `line.split(" ")[0].strip()`,
any other line yields nothing. -/
def parseFailed (line : String) : Option String :=
  if containsSeq (" FAILED".toList) line.toList = true then
    some (String.mk (stripChars (firstToken line.toList)))
  else none

/-- `find_victims` (`flakyfence.py`, lines 61–74): empty when the full run
succeeds; otherwise each `" FAILED"` line's leading token, kept when it is
nonempty and the single test passes alone (`run_sequence([tid])`). -/
def find_victims (ex : Executor) : List String :=
  if ex.suiteSuccess then []
  else
    ex.suiteOutput.filterMap (fun line =>
      match parseFailed line with
      | some tid =>
          if tid ≠ "" ∧ ex.runSeq [tid] = true then some tid else none
      | none => none)

/-- The tests reported individually as failed by the full run: the
nonempty leading tokens of the `" FAILED"` lines, in report order. -/
def reportedFailed (ex : Executor) : List String :=
  ex.suiteOutput.filterMap (fun line =>
    match parseFailed line with
    | some tid => if tid ≠ "" then some tid else none
    | none => none)

/-- One result dictionary of `analyze`:
`{"victim": ..., "polluters": ..., "state_changes": []}`. -/
structure Finding where
  victim : String
  polluters : List String
  state_changes : List StateChange
deriving DecidableEq, Repr

/-- The loop body of `analyze` (`flakyfence.py`, lines 95–103): `vs` is the
remaining victims, `i` the enumerate index; `0 < limit <= i` breaks, else
the suspects are the tests before the victim's first index (all of them
when absent, as `test_ids.index` falls back to `len(test_ids)`) minus the
victim itself, and the bisected polluters are recorded. -/
def analyzeGo (ex : Executor) (test_ids : List String) (limit : Int) :
    List String → Nat → List Finding
  | [], _ => []
  | v :: rest, i =>
    if 0 < limit ∧ limit ≤ (i : Int) then []
    else
      { victim := v
        polluters :=
          bisect_polluter v
            ((test_ids.take (test_ids.indexOf v)).filter (fun t => decide (t ≠ v)))
            (fun tests => ex.runSeq (tests ++ [v]))
        state_changes := [] }
        :: analyzeGo ex test_ids limit rest (i + 1)

/-- `analyze` (`flakyfence.py`, lines 92–104): find the victims, then run
the loop from enumerate index 0. -/
def analyze (ex : Executor) (test_ids : List String) (limit : Int) :
    List Finding :=
  analyzeGo ex test_ids limit (find_victims ex) 0

/-! ## Bisector lemmas -/

/-- Base case of the bisector: lists of length at most one come back as is. -/
theorem bisect_polluter_of_length_le_one (victim : String) (suspects : List String)
    (runner : List String → Bool) (h : suspects.length ≤ 1) :
    bisect_polluter victim suspects runner = suspects := by
  rw [bisect_polluter]
  simp [h]

/-- Every element of the bisector's answer comes from the suspect list. -/
theorem bisect_polluter_subset (victim : String) (suspects : List String)
    (runner : List String → Bool) :
    ∀ x ∈ bisect_polluter victim suspects runner, x ∈ suspects := by
  induction suspects, runner using bisect_polluter.induct victim with
  | case1 s r h =>
    rw [bisect_polluter_of_length_le_one victim s r h]
    exact fun x hx => hx
  | case2 s r h hp ih =>
    rw [bisect_polluter, dif_neg h, if_pos hp]
    exact fun x hx => List.mem_of_mem_take (ih x hx)
  | case3 s r h hp hq ih =>
    rw [bisect_polluter, dif_neg h, if_neg hp, if_pos hq]
    exact fun x hx => List.mem_of_mem_drop (ih x hx)
  | case4 s r h hp hq =>
    rw [bisect_polluter, dif_neg h, if_neg hp, if_neg hq]
    exact fun x hx => hx

/-- The bisector's answer is empty exactly when the suspect list was. -/
theorem bisect_polluter_eq_nil_iff (victim : String) (suspects : List String)
    (runner : List String → Bool) :
    bisect_polluter victim suspects runner = [] ↔ suspects = [] := by
  induction suspects, runner using bisect_polluter.induct victim with
  | case1 s r h =>
    rw [bisect_polluter_of_length_le_one victim s r h]
  | case2 s r h hp ih =>
    rw [bisect_polluter, dif_neg h, if_pos hp, ih]
    have h1 : s.take (s.length / 2) ≠ [] := by
      have : 0 < (s.take (s.length / 2)).length := by
        rw [List.length_take]; omega
      exact List.ne_nil_of_length_pos this
    have h2 : s ≠ [] := by
      have : 0 < s.length := by omega
      exact List.ne_nil_of_length_pos this
    exact iff_of_false h1 h2
  | case3 s r h hp hq ih =>
    rw [bisect_polluter, dif_neg h, if_neg hp, if_pos hq, ih]
    have h1 : s.drop (s.length / 2) ≠ [] := by
      have : 0 < (s.drop (s.length / 2)).length := by
        rw [List.length_drop]; omega
      exact List.ne_nil_of_length_pos this
    have h2 : s ≠ [] := by
      have : 0 < s.length := by omega
      exact List.ne_nil_of_length_pos this
    exact iff_of_false h1 h2
  | case4 s r h hp hq =>
    rw [bisect_polluter, dif_neg h, if_neg hp, if_neg hq]

/-- C1: when the probe fails exactly on subsets containing a single suspect
`s` of the list, the bisector isolates `s`: it returns the singleton `[s]`. -/
theorem bisect_polluter_isolates (victim s : String) (suspects : List String)
    (runner : List String → Bool)
    (hr : ∀ l, runner l = false ↔ s ∈ l) (hs : s ∈ suspects) :
    bisect_polluter victim suspects runner = [s] := by
  induction suspects, runner using bisect_polluter.induct victim with
  | case1 t r h =>
    match t, h, hs with
    | [a], _, hs =>
      have ha : s = a := by simpa using hs
      subst ha
      exact bisect_polluter_of_length_le_one victim [s] r (by simp)
  | case2 t r h hp ih =>
    rw [bisect_polluter, dif_neg h, if_pos hp]
    exact ih hr ((hr _).mp hp)
  | case3 t r h hp hq ih =>
    rw [bisect_polluter, dif_neg h, if_neg hp, if_pos hq]
    exact ih hr ((hr _).mp hq)
  | case4 t r h hp hq =>
    exfalso
    have hsplit : s ∈ t.take (t.length / 2) ++ t.drop (t.length / 2) := by
      rw [List.take_append_drop]; exact hs
    rcases List.mem_append.mp hsplit with hleft | hright
    · exact hp ((hr _).mpr hleft)
    · exact hq ((hr _).mpr hright)

/-- Witness for C1 at the spec's two concrete scenarios: suspects
`["a","b","d"]` with a runner failing exactly when `"b"` is present yield
`["b"]`; sixteen suspects `t0..t15` with a runner failing exactly when
`"t14"` is present yield `["t14"]`. -/
theorem bisect_polluter_isolates_witness :
    bisect_polluter "v" ["a", "b", "d"] (fun l => !l.contains "b") = ["b"] ∧
    bisect_polluter "v"
      ["t0", "t1", "t2", "t3", "t4", "t5", "t6", "t7", "t8", "t9", "t10",
       "t11", "t12", "t13", "t14", "t15"]
      (fun l => !l.contains "t14") = ["t14"] := by
  constructor
  · exact bisect_polluter_isolates "v" "b" _ _
      (fun l => by simp) (by simp)
  · exact bisect_polluter_isolates "v" "t14" _ _
      (fun l => by simp) (by simp)

/-- C2: when both halves pass the probe, the bisector returns the current
suspect list unreduced. -/
theorem bisect_polluter_both_halves_pass (victim : String) (suspects : List String)
    (runner : List String → Bool) (h2 : 2 ≤ suspects.length)
    (hl : runner (suspects.take (suspects.length / 2)) = true)
    (hr : runner (suspects.drop (suspects.length / 2)) = true) :
    bisect_polluter victim suspects runner = suspects := by
  rw [bisect_polluter]
  have h : ¬ suspects.length ≤ 1 := by omega
  simp [h, hl, hr]

/-- Witness for C2: suspects `["a","b"]` with a runner failing only when
both are present come back whole, so the answer's elements are `{a, b}`. -/
theorem bisect_polluter_both_halves_pass_witness :
    bisect_polluter "v" ["a", "b"] (fun l => !(l.contains "a" && l.contains "b"))
      = ["a", "b"] := by
  exact bisect_polluter_both_halves_pass "v" ["a", "b"] _
    (by simp) (by simp) (by simp)

/-- C3: on an empty or singleton suspect list the bisector returns the list
unchanged and performs no probe at all (its probe trace is empty), whatever
the runner would have reported. -/
theorem bisect_polluter_trivial_cases (victim x : String) (runner : List String → Bool) :
    bisect_polluter victim [] runner = [] ∧
    bisect_polluter victim [x] runner = [x] ∧
    bisect_probes victim [] runner = [] ∧
    bisect_probes victim [x] runner = [] := by
  refine ⟨?_, ?_, ?_, ?_⟩
  · rw [bisect_polluter]; simp
  · rw [bisect_polluter]; simp
  · rw [bisect_probes]; simp
  · rw [bisect_probes]; simp

/-- C10: on a suspect list of length at least 2 both halves are strictly
shorter than the list — the left has length `len / 2`, the right
`len - len / 2` — so the recursion of `bisect_polluter` is well-founded,
and the function satisfies its recursion equation. -/
theorem bisect_polluter_terminates (victim : String) (suspects : List String)
    (runner : List String → Bool) (h : 2 ≤ suspects.length) :
    (suspects.take (suspects.length / 2)).length = suspects.length / 2 ∧
    (suspects.drop (suspects.length / 2)).length
      = suspects.length - suspects.length / 2 ∧
    suspects.length / 2 < suspects.length ∧
    suspects.length - suspects.length / 2 < suspects.length ∧
    bisect_polluter victim suspects runner =
      (if runner (suspects.take (suspects.length / 2)) = false then
        bisect_polluter victim (suspects.take (suspects.length / 2)) runner
      else if runner (suspects.drop (suspects.length / 2)) = false then
        bisect_polluter victim (suspects.drop (suspects.length / 2)) runner
      else suspects) := by
  refine ⟨by simp; omega, by simp, by omega, by omega, ?_⟩
  conv_lhs => rw [bisect_polluter]
  have hn : ¬ suspects.length ≤ 1 := by omega
  simp only [hn, dite_false]

/-- Witness for C10 at a concrete three-element list: the halves have
lengths 1 and 2, both below 3, and the unfolding equation holds. -/
theorem bisect_polluter_terminates_witness :
    (["a", "b", "c"].take 1).length = 1 ∧
    (["a", "b", "c"].drop 1).length = 2 ∧
    (1 : Nat) < 3 ∧ (2 : Nat) < 3 ∧
    bisect_polluter "v" ["a", "b", "c"] (fun _ => true) =
      (if (fun (_ : List String) => true) (["a", "b", "c"].take 1) = false then
        bisect_polluter "v" (["a", "b", "c"].take 1) (fun _ => true)
      else if (fun (_ : List String) => true) (["a", "b", "c"].drop 1) = false then
        bisect_polluter "v" (["a", "b", "c"].drop 1) (fun _ => true)
      else ["a", "b", "c"]) := by
  exact bisect_polluter_terminates "v" ["a", "b", "c"] (fun _ => true) (by simp)

/-! ## VictimFinder lemmas -/

/-- C7: on an overall-failing full run, the victims are exactly the tests
reported individually as failed that pass when re-run alone, kept in report
order. -/
theorem find_victims_eq_reported_filter (ex : Executor)
    (h : ex.suiteSuccess = false) :
    find_victims ex = (reportedFailed ex).filter (fun t => ex.runSeq [t]) := by
  unfold find_victims reportedFailed
  rw [h]
  simp only [Bool.false_eq_true, if_false]
  induction ex.suiteOutput with
  | nil => rfl
  | cons line rest ih =>
    simp only [List.filterMap_cons]
    cases hp : parseFailed line with
    | none => simpa using ih
    | some tid =>
      by_cases ht : tid = ""
      · simp [ht, ih]
      · by_cases hrun : ex.runSeq [tid] = true
        · simp [ht, hrun, ih]
        · simp [ht, hrun, ih]

/-- Witness for C7: a failing run reporting `t1` and `t2` as failed, where
only `t1` passes alone, yields victims `["t1"]`, which is the reported-failed
list filtered by the lone re-run. -/
theorem find_victims_eq_reported_filter_witness :
    find_victims
        { suiteSuccess := false
          suiteOutput := ["t1 FAILED", "collected 2 items", "t2 FAILED"]
          runSeq := fun l => !(l == ["t2"]) }
      = (reportedFailed
          { suiteSuccess := false
            suiteOutput := ["t1 FAILED", "collected 2 items", "t2 FAILED"]
            runSeq := fun l => !(l == ["t2"]) }).filter
          (fun t =>
            ({ suiteSuccess := false
               suiteOutput := ["t1 FAILED", "collected 2 items", "t2 FAILED"]
               runSeq := fun l => !(l == ["t2"]) } : Executor).runSeq [t]) ∧
    find_victims
        { suiteSuccess := false
          suiteOutput := ["t1 FAILED", "collected 2 items", "t2 FAILED"]
          runSeq := fun l => !(l == ["t2"]) }
      = ["t1"] := by
  exact ⟨find_victims_eq_reported_filter _ rfl, by decide⟩

/-- C8: `find_victims` degrades to an empty list both when the full run
succeeds and when no output line carries the `" FAILED"` marker. -/
theorem find_victims_degrades (ex : Executor) :
    (ex.suiteSuccess = true → find_victims ex = []) ∧
    ((∀ line ∈ ex.suiteOutput, containsSeq (" FAILED".toList) line.toList = false) →
      find_victims ex = []) := by
  constructor
  · intro h
    unfold find_victims
    rw [h]
    rfl
  · intro hml
    unfold find_victims
    by_cases hs : ex.suiteSuccess = true
    · rw [hs]; rfl
    · rw [Bool.not_eq_true] at hs
      rw [hs]
      simp only [Bool.false_eq_true, if_false]
      rw [List.filterMap_eq_nil_iff]
      intro line hline
      have hnone : parseFailed line = none := by
        unfold parseFailed
        rw [if_neg (by simpa using hml line hline)]
      rw [hnone]

/-- Witness for C8: a successful run with a `" FAILED"` line in its output
yields no victims, and a failing run with no `" FAILED"` line yields no
victims either. -/
theorem find_victims_degrades_witness :
    find_victims
        { suiteSuccess := true
          suiteOutput := ["t1 FAILED"]
          runSeq := fun _ => true } = [] ∧
    find_victims
        { suiteSuccess := false
          suiteOutput := ["collected 2 items", "2 passed"]
          runSeq := fun _ => true } = [] := by
  constructor
  · exact (find_victims_degrades _).1 rfl
  · exact (find_victims_degrades _).2 (by decide)

/-! ## Orchestrator lemmas -/

/-- The victims recorded by the `analyze` loop from enumerate index `i`:
all remaining victims when the limit is not positive, the first
`limit - i` otherwise. -/
theorem analyzeGo_map_victim (ex : Executor) (test_ids : List String)
    (limit : Int) :
    ∀ (vs : List String) (i : Nat),
      (analyzeGo ex test_ids limit vs i).map Finding.victim =
        if 0 < limit then vs.take (limit.toNat - i) else vs := by
  intro vs
  induction vs with
  | nil => intro i; rw [analyzeGo]; simp
  | cons v rest ih =>
    intro i
    by_cases hl : 0 < limit
    · by_cases hi : limit ≤ (i : Int)
      · rw [analyzeGo, if_pos ⟨hl, hi⟩, if_pos hl]
        have : limit.toNat - i = 0 := by omega
        rw [this, List.take_zero]
        rfl
      · rw [analyzeGo, if_neg (fun hc => hi hc.2)]
        rw [List.map_cons, ih (i + 1), if_pos hl, if_pos hl]
        have : limit.toNat - i = (limit.toNat - (i + 1)) + 1 := by omega
        rw [this, List.take_succ_cons]
    · rw [analyzeGo, if_neg (fun hc => hl hc.1)]
      rw [List.map_cons, ih (i + 1), if_neg hl, if_neg hl]

/-- C9: with a positive limit, `analyze` reports on exactly the first
`limit` victims (so at most `limit` findings, in victim order); with limit
`0` it reports one finding per victim, unbounded. -/
theorem analyze_limit_spec (ex : Executor) (test_ids : List String)
    (limit : Int) :
    (0 < limit →
      (analyze ex test_ids limit).map Finding.victim
          = (find_victims ex).take limit.toNat ∧
      (analyze ex test_ids limit).length ≤ limit.toNat) ∧
    (limit = 0 →
      (analyze ex test_ids limit).map Finding.victim = find_victims ex ∧
      (analyze ex test_ids limit).length = (find_victims ex).length) := by
  constructor
  · intro hl
    have hmap := analyzeGo_map_victim ex test_ids limit (find_victims ex) 0
    rw [if_pos hl] at hmap
    simp only [Nat.sub_zero] at hmap
    refine ⟨hmap, ?_⟩
    have : (analyze ex test_ids limit).length
        = ((analyze ex test_ids limit).map Finding.victim).length := by
      rw [List.length_map]
    rw [this, analyze, hmap]
    exact le_trans (List.length_take_le _ _) (le_refl _)
  · intro hz
    have hmap := analyzeGo_map_victim ex test_ids limit (find_victims ex) 0
    rw [if_neg (by omega)] at hmap
    refine ⟨hmap, ?_⟩
    have : (analyze ex test_ids limit).length
        = ((analyze ex test_ids limit).map Finding.victim).length := by
      rw [List.length_map]
    rw [this, analyze, hmap]

/-- Witness for C9: two victims and limit `1` yield the single finding for
the first victim; limit `0` yields both findings. -/
theorem analyze_limit_spec_witness :
    ((analyze
        { suiteSuccess := false
          suiteOutput := ["t1 FAILED", "t2 FAILED"]
          runSeq := fun _ => true }
        ["t1", "t2"] 1).map Finding.victim
      = (find_victims
          { suiteSuccess := false
            suiteOutput := ["t1 FAILED", "t2 FAILED"]
            runSeq := fun _ => true }).take 1 ∧
    (analyze
        { suiteSuccess := false
          suiteOutput := ["t1 FAILED", "t2 FAILED"]
          runSeq := fun _ => true }
        ["t1", "t2"] 1).length ≤ 1) ∧
    ((analyze
        { suiteSuccess := false
          suiteOutput := ["t1 FAILED", "t2 FAILED"]
          runSeq := fun _ => true }
        ["t1", "t2"] 0).map Finding.victim
      = find_victims
          { suiteSuccess := false
            suiteOutput := ["t1 FAILED", "t2 FAILED"]
            runSeq := fun _ => true } ∧
    (analyze
        { suiteSuccess := false
          suiteOutput := ["t1 FAILED", "t2 FAILED"]
          runSeq := fun _ => true }
        ["t1", "t2"] 0).length
      = (find_victims
          { suiteSuccess := false
            suiteOutput := ["t1 FAILED", "t2 FAILED"]
            runSeq := fun _ => true }).length) := by
  constructor
  · exact (analyze_limit_spec _ _ 1).1 (by omega)
  · exact (analyze_limit_spec _ _ 0).2 rfl

/-- Every finding of the `analyze` loop carries as polluters exactly the
bisector's answer over the prefix of `test_ids` before the victim's first
index, the victim itself excluded. -/
theorem analyzeGo_polluters (ex : Executor) (test_ids : List String)
    (limit : Int) :
    ∀ (vs : List String) (i : Nat) (f : Finding),
      f ∈ analyzeGo ex test_ids limit vs i →
      f.polluters =
        bisect_polluter f.victim
          ((test_ids.take (test_ids.indexOf f.victim)).filter
            (fun t => decide (t ≠ f.victim)))
          (fun tests => ex.runSeq (tests ++ [f.victim])) := by
  intro vs
  induction vs with
  | nil => intro i f hf; rw [analyzeGo] at hf; cases hf
  | cons v rest ih =>
    intro i f hf
    rw [analyzeGo] at hf
    by_cases hc : 0 < limit ∧ limit ≤ (i : Int)
    · rw [if_pos hc] at hf; cases hf
    · rw [if_neg hc] at hf
      rcases List.mem_cons.mp hf with hhead | htail
      · subst hhead; rfl
      · exact ih (i + 1) f htail

/-- C4: every finding of `analyze` has polluters drawn from the tests
strictly before its victim's first occurrence in `test_ids` (and distinct
from the victim), and the polluter list is empty exactly when that initial
suspect list was empty. -/
theorem analyze_polluters_invariant (ex : Executor) (test_ids : List String)
    (limit : Int) :
    ∀ f ∈ analyze ex test_ids limit,
      (∀ x ∈ f.polluters,
        x ∈ test_ids.take (test_ids.indexOf f.victim) ∧ x ≠ f.victim) ∧
      (f.polluters = [] ↔
        (test_ids.take (test_ids.indexOf f.victim)).filter
          (fun t => decide (t ≠ f.victim)) = []) := by
  intro f hf
  have hp := analyzeGo_polluters ex test_ids limit (find_victims ex) 0 f hf
  constructor
  · intro x hx
    rw [hp] at hx
    have hmem := bisect_polluter_subset _ _ _ x hx
    have := List.mem_filter.mp hmem
    exact ⟨this.1, by simpa using this.2⟩
  · rw [hp]
    exact bisect_polluter_eq_nil_iff _ _ _

/-- Witness for C4: with suite order `["t1","t2","t3"]`, victim `t3` and a
runner failing exactly when `t1` precedes it, the unique finding blames
`["t1"]`, a nonempty subset of the tests before `t3`. -/
theorem analyze_polluters_invariant_witness :
    (∀ x ∈ (Finding.mk "t3" ["t1"] []).polluters,
      x ∈ ["t1", "t2", "t3"].take
          (["t1", "t2", "t3"].indexOf (Finding.mk "t3" ["t1"] []).victim) ∧
      x ≠ (Finding.mk "t3" ["t1"] []).victim) ∧
    ((Finding.mk "t3" ["t1"] []).polluters = [] ↔
      (["t1", "t2", "t3"].take
          (["t1", "t2", "t3"].indexOf (Finding.mk "t3" ["t1"] []).victim)).filter
        (fun t => decide (t ≠ (Finding.mk "t3" ["t1"] []).victim)) = []) := by
  refine analyze_polluters_invariant
    { suiteSuccess := false
      suiteOutput := ["t3 FAILED"]
      runSeq := fun l => !(l.contains "t1") }
    ["t1", "t2", "t3"] 3 (Finding.mk "t3" ["t1"] []) ?_
  have h1 : find_victims
      { suiteSuccess := false
        suiteOutput := ["t3 FAILED"]
        runSeq := fun l => !(l.contains "t1") } = ["t3"] := by decide
  rw [analyze, h1, analyzeGo, if_neg (by omega), analyzeGo]
  simp [bisect_polluter]

/-! ## Snapshot diff lemmas -/

theorem envKeys_nodup (e : List (String × String)) : (envKeys e).Nodup :=
  List.nodup_dedup _

/-- A key is in the deduplicated key set exactly when lookup succeeds. -/
theorem mem_envKeys_iff (e : List (String × String)) (k : String) :
    k ∈ envKeys e ↔ (envLookup e k).isSome = true := by
  unfold envKeys
  rw [List.mem_dedup]
  induction e with
  | nil => simp [envLookup]
  | cons p rest ih =>
    obtain ⟨a, b⟩ := p
    by_cases hk : k = a
    · subst hk; simp [envLookup]
    · simp [envLookup, hk, ih]

theorem envGet_of_lookup (e : List (String × String)) (k v : String)
    (h : envLookup e k = some v) : envGet e k = v := by
  unfold envGet; rw [h]; rfl

/-- A boolean filter over a duplicate-free list whose predicate holds at
`a` and nowhere else keeps exactly `[a]`. -/
theorem filter_eq_singleton_of_nodup {α : Type} (l : List α) (p : α → Bool)
    (a : α) (hnd : l.Nodup) (ha : a ∈ l) (hpa : p a = true)
    (hother : ∀ x ∈ l, x ≠ a → p x = false) : l.filter p = [a] := by
  induction l with
  | nil => cases ha
  | cons b t ih =>
    have hnd' := List.nodup_cons.mp hnd
    rcases List.mem_cons.mp ha with hba | hat
    · subst hba
      rw [List.filter_cons_of_pos hpa]
      have ht : t.filter p = [] := by
        rw [List.filter_eq_nil_iff]
        intro x hx
        have hxa : x ≠ a := fun he => hnd'.1 (he ▸ hx)
        simp [hother x (List.mem_cons_of_mem _ hx) hxa]
      rw [ht]
    · have hb : b ≠ a := fun he => hnd'.1 (he ▸ hat)
      rw [List.filter_cons_of_neg (by simp [hother b (List.mem_cons_self b t) hb])]
      exact ih hnd'.2 hat
        (fun x hx hxa => hother x (List.mem_cons_of_mem _ hx) hxa)

/-- When every key of `after` is a key of `before`, no `env_added` record
is produced. -/
theorem envAddedPart_nil (before after : StateSnapshot)
    (h : ∀ x ∈ envKeys after.env, x ∈ envKeys before.env) :
    envAddedPart before after = [] := by
  unfold envAddedPart
  rw [List.map_eq_nil_iff, List.filter_eq_nil_iff]
  intro x hx
  simp [h x hx]

/-- When every key of `before` is a key of `after`, no `env_removed`
record is produced. -/
theorem envRemovedPart_nil (before after : StateSnapshot)
    (h : ∀ x ∈ envKeys before.env, x ∈ envKeys after.env) :
    envRemovedPart before after = [] := by
  unfold envRemovedPart
  rw [List.map_eq_nil_iff, List.filter_eq_nil_iff]
  intro x hx
  simp [h x hx]

/-- When the two snapshots agree on every common key, no `env_changed`
record is produced. -/
theorem envChangedPart_nil (before after : StateSnapshot)
    (h : ∀ x, x ∈ envKeys before.env → x ∈ envKeys after.env →
      envGet before.env x = envGet after.env x) :
    envChangedPart before after = [] := by
  unfold envChangedPart
  rw [List.map_eq_nil_iff, List.filter_eq_nil_iff]
  intro x hx
  have hxb := List.mem_filter.mp hx
  have hxa : x ∈ envKeys after.env := by simpa using hxb.2
  simp [h x hxb.1 hxa]

/-- When every module of `after` is a module of `before`, no
`module_added` record is produced. -/
theorem moduleAddedPart_nil (before after : StateSnapshot)
    (h : ∀ x ∈ after.modules, x ∈ before.modules) :
    moduleAddedPart before after = [] := by
  unfold moduleAddedPart
  rw [List.map_eq_nil_iff, List.filter_eq_nil_iff]
  intro x hx
  simp [h x (List.mem_dedup.mp hx)]

/-- C5: two snapshots with the same environment mapping and the same
module set have an empty diff; in particular `diff S S = []`. -/
theorem diff_of_agree (before after : StateSnapshot)
    (henv : ∀ k, envLookup before.env k = envLookup after.env k)
    (hmod : ∀ m, m ∈ before.modules ↔ m ∈ after.modules) :
    before.diff after = [] := by
  unfold StateSnapshot.diff
  rw [envAddedPart_nil before after (fun x hx => by
        rw [mem_envKeys_iff, henv x, ← mem_envKeys_iff]; exact hx),
      envRemovedPart_nil before after (fun x hx => by
        rw [mem_envKeys_iff, ← henv x, ← mem_envKeys_iff]; exact hx),
      envChangedPart_nil before after (fun x _ _ => by
        unfold envGet; rw [henv x]),
      moduleAddedPart_nil before after (fun x hx => (hmod x).mpr hx)]
  rfl

/-- Witness for C5: a concrete snapshot diffed against itself is empty. -/
theorem diff_of_agree_witness :
    StateSnapshot.diff
        { env := [("PATH", "/bin"), ("HOME", "/root")], modules := ["os", "sys"] }
        { env := [("PATH", "/bin"), ("HOME", "/root")], modules := ["os", "sys"] }
      = [] :=
  diff_of_agree _ _ (fun _ => rfl) (fun _ => Iff.rfl)

/-- A key present only in `after` makes `env_added` report exactly it. -/
theorem envAddedPart_singleton (before after : StateSnapshot) (k v : String)
    (hb : envLookup before.env k = none)
    (ha : envLookup after.env k = some v)
    (hoth : ∀ x, x ≠ k → x ∈ envKeys after.env → x ∈ envKeys before.env) :
    envAddedPart before after = [StateChange.env_added k v] := by
  unfold envAddedPart
  have hkb : k ∉ envKeys before.env := by rw [mem_envKeys_iff, hb]; simp
  have hfil : (envKeys after.env).filter
      (fun x => decide (x ∉ envKeys before.env)) = [k] := by
    apply filter_eq_singleton_of_nodup _ _ k (envKeys_nodup _)
    · rw [mem_envKeys_iff, ha]; rfl
    · simp [hkb]
    · intro x hx hxk
      simp [hoth x hxk hx]
  rw [hfil, List.map_cons, List.map_nil, envGet_of_lookup after.env k v ha]

/-- A key present only in `before` makes `env_removed` report exactly it. -/
theorem envRemovedPart_singleton (before after : StateSnapshot) (k v : String)
    (hb : envLookup before.env k = some v)
    (ha : envLookup after.env k = none)
    (hoth : ∀ x, x ≠ k → x ∈ envKeys before.env → x ∈ envKeys after.env) :
    envRemovedPart before after = [StateChange.env_removed k] := by
  unfold envRemovedPart
  have hka : k ∉ envKeys after.env := by rw [mem_envKeys_iff, ha]; simp
  have hfil : (envKeys before.env).filter
      (fun x => decide (x ∉ envKeys after.env)) = [k] := by
    apply filter_eq_singleton_of_nodup _ _ k (envKeys_nodup _)
    · rw [mem_envKeys_iff, hb]; rfl
    · simp [hka]
    · intro x hx hxk
      simp [hoth x hxk hx]
  rw [hfil, List.map_cons, List.map_nil]

/-- A common key holding different values makes `env_changed` report
exactly it, with the old and the new value. -/
theorem envChangedPart_singleton (before after : StateSnapshot)
    (k old new : String)
    (hold : envLookup before.env k = some old)
    (hnew : envLookup after.env k = some new)
    (hne : old ≠ new)
    (hoth : ∀ x, x ≠ k → x ∈ envKeys before.env → x ∈ envKeys after.env →
      envGet before.env x = envGet after.env x) :
    envChangedPart before after = [StateChange.env_changed k old new] := by
  unfold envChangedPart
  have hkb : k ∈ envKeys before.env := by rw [mem_envKeys_iff, hold]; rfl
  have hka : k ∈ envKeys after.env := by rw [mem_envKeys_iff, hnew]; rfl
  have hfil : ((envKeys before.env).filter
        (fun x => decide (x ∈ envKeys after.env))).filter
      (fun x => decide (envGet before.env x ≠ envGet after.env x)) = [k] := by
    apply filter_eq_singleton_of_nodup _ _ k ((envKeys_nodup _).filter _)
    · rw [List.mem_filter]; exact ⟨hkb, by simp [hka]⟩
    · rw [envGet_of_lookup before.env k old hold,
          envGet_of_lookup after.env k new hnew]
      simp [hne]
    · intro x hx hxk
      have hxb := List.mem_filter.mp hx
      have hxa : x ∈ envKeys after.env := by simpa using hxb.2
      simp [hoth x hxk hxb.1 hxa]
  rw [hfil, List.map_cons, List.map_nil,
      envGet_of_lookup before.env k old hold,
      envGet_of_lookup after.env k new hnew]

/-- A module present only in `after` makes `module_added` report exactly
it. -/
theorem moduleAddedPart_singleton (before after : StateSnapshot) (m : String)
    (hmb : m ∉ before.modules) (hma : m ∈ after.modules)
    (hoth : ∀ x, x ≠ m → x ∈ after.modules → x ∈ before.modules) :
    moduleAddedPart before after = [StateChange.module_added m] := by
  unfold moduleAddedPart
  have hfil : (after.modules.dedup).filter
      (fun x => decide (x ∉ before.modules)) = [m] := by
    apply filter_eq_singleton_of_nodup _ _ m (List.nodup_dedup _)
    · exact List.mem_dedup.mpr hma
    · simp [hmb]
    · intro x hx hxm
      simp [hoth x hxm (List.mem_dedup.mp hx)]
  rw [hfil, List.map_cons, List.map_nil]

/-- C6: snapshots differing by exactly one environment key — one key
added, one removed, or one value changed — or by exactly one module
present only in `after`, diff to exactly the one corresponding record;
and modules present only in `before` produce no record at all. -/
theorem diff_single_change (before after : StateSnapshot)
    (k v old new m : String) :
    (envLookup before.env k = none → envLookup after.env k = some v →
      (∀ x, x ≠ k → envLookup before.env x = envLookup after.env x) →
      (∀ x, x ∈ before.modules ↔ x ∈ after.modules) →
      before.diff after = [StateChange.env_added k v]) ∧
    (envLookup before.env k = some v → envLookup after.env k = none →
      (∀ x, x ≠ k → envLookup before.env x = envLookup after.env x) →
      (∀ x, x ∈ before.modules ↔ x ∈ after.modules) →
      before.diff after = [StateChange.env_removed k]) ∧
    (envLookup before.env k = some old → envLookup after.env k = some new →
      old ≠ new →
      (∀ x, x ≠ k → envLookup before.env x = envLookup after.env x) →
      (∀ x, x ∈ before.modules ↔ x ∈ after.modules) →
      before.diff after = [StateChange.env_changed k old new]) ∧
    ((∀ x, envLookup before.env x = envLookup after.env x) →
      m ∉ before.modules → m ∈ after.modules →
      (∀ x, x ≠ m → (x ∈ before.modules ↔ x ∈ after.modules)) →
      before.diff after = [StateChange.module_added m]) ∧
    ((∀ x, envLookup before.env x = envLookup after.env x) →
      (∀ x ∈ after.modules, x ∈ before.modules) →
      before.diff after = []) := by
  refine ⟨?_, ?_, ?_, ?_, ?_⟩
  · intro hb ha henv hmod
    unfold StateSnapshot.diff
    rw [envAddedPart_singleton before after k v hb ha (fun x hxk hx => by
          rw [mem_envKeys_iff, henv x hxk, ← mem_envKeys_iff]; exact hx),
        envRemovedPart_nil before after (fun x hx => by
          by_cases hxk : x = k
          · subst hxk; rw [mem_envKeys_iff, hb] at hx; cases hx
          · rw [mem_envKeys_iff, ← henv x hxk, ← mem_envKeys_iff]; exact hx),
        envChangedPart_nil before after (fun x hxb _ => by
          by_cases hxk : x = k
          · subst hxk; rw [mem_envKeys_iff, hb] at hxb; cases hxb
          · unfold envGet; rw [henv x hxk]),
        moduleAddedPart_nil before after (fun x hx => (hmod x).mpr hx)]
    rfl
  · intro hb ha henv hmod
    unfold StateSnapshot.diff
    rw [envAddedPart_nil before after (fun x hx => by
          by_cases hxk : x = k
          · subst hxk; rw [mem_envKeys_iff, ha] at hx; cases hx
          · rw [mem_envKeys_iff, henv x hxk, ← mem_envKeys_iff]; exact hx),
        envRemovedPart_singleton before after k v hb ha (fun x hxk hx => by
          rw [mem_envKeys_iff, ← henv x hxk, ← mem_envKeys_iff]; exact hx),
        envChangedPart_nil before after (fun x _ hxa => by
          by_cases hxk : x = k
          · subst hxk; rw [mem_envKeys_iff, ha] at hxa; cases hxa
          · unfold envGet; rw [henv x hxk]),
        moduleAddedPart_nil before after (fun x hx => (hmod x).mpr hx)]
    rfl
  · intro hold hnew hne henv hmod
    unfold StateSnapshot.diff
    rw [envAddedPart_nil before after (fun x hx => by
          by_cases hxk : x = k
          · subst hxk; rw [mem_envKeys_iff, hold]; rfl
          · rw [mem_envKeys_iff, henv x hxk, ← mem_envKeys_iff]; exact hx),
        envRemovedPart_nil before after (fun x hx => by
          by_cases hxk : x = k
          · subst hxk; rw [mem_envKeys_iff, hnew]; rfl
          · rw [mem_envKeys_iff, ← henv x hxk, ← mem_envKeys_iff]; exact hx),
        envChangedPart_singleton before after k old new hold hnew hne
          (fun x hxk _ _ => by unfold envGet; rw [henv x hxk]),
        moduleAddedPart_nil before after (fun x hx => (hmod x).mpr hx)]
    rfl
  · intro henv hmb hma hmod
    unfold StateSnapshot.diff
    rw [envAddedPart_nil before after (fun x hx => by
          rw [mem_envKeys_iff, henv x, ← mem_envKeys_iff]; exact hx),
        envRemovedPart_nil before after (fun x hx => by
          rw [mem_envKeys_iff, ← henv x, ← mem_envKeys_iff]; exact hx),
        envChangedPart_nil before after (fun x _ _ => by
          unfold envGet; rw [henv x]),
        moduleAddedPart_singleton before after m hmb hma
          (fun x hxm hx => ((hmod x hxm).mpr hx))]
    rfl
  · intro henv hmod
    unfold StateSnapshot.diff
    rw [envAddedPart_nil before after (fun x hx => by
          rw [mem_envKeys_iff, henv x, ← mem_envKeys_iff]; exact hx),
        envRemovedPart_nil before after (fun x hx => by
          rw [mem_envKeys_iff, ← henv x, ← mem_envKeys_iff]; exact hx),
        envChangedPart_nil before after (fun x _ _ => by
          unfold envGet; rw [henv x]),
        moduleAddedPart_nil before after hmod]
    rfl

/-- Witness for C6 at concrete snapshots: one key added, one removed, one
value changed, one module added — each yields exactly the one matching
record — and a module removal yields nothing. -/
theorem diff_single_change_witness :
    StateSnapshot.diff
        { env := [("A", "1")], modules := ["os"] }
        { env := [("K", "2"), ("A", "1")], modules := ["os"] }
      = [StateChange.env_added "K" "2"] ∧
    StateSnapshot.diff
        { env := [("K", "2"), ("A", "1")], modules := ["os"] }
        { env := [("A", "1")], modules := ["os"] }
      = [StateChange.env_removed "K"] ∧
    StateSnapshot.diff
        { env := [("K", "a"), ("A", "1")], modules := ["os"] }
        { env := [("K", "b"), ("A", "1")], modules := ["os"] }
      = [StateChange.env_changed "K" "a" "b"] ∧
    StateSnapshot.diff
        { env := [("A", "1")], modules := ["os"] }
        { env := [("A", "1")], modules := ["os", "json"] }
      = [StateChange.module_added "json"] ∧
    StateSnapshot.diff
        { env := [("A", "1")], modules := ["os", "json"] }
        { env := [("A", "1")], modules := ["os"] }
      = [] := by
  refine ⟨?_, ?_, ?_, ?_, ?_⟩
  · exact (diff_single_change _ _ "K" "2" "" "" "").1 rfl rfl
      (fun x hx => by simp [envLookup, hx]) (fun _ => Iff.rfl)
  · exact (diff_single_change _ _ "K" "2" "" "" "").2.1 rfl rfl
      (fun x hx => by simp [envLookup, hx]) (fun _ => Iff.rfl)
  · exact (diff_single_change _ _ "K" "" "a" "b" "").2.2.1 rfl rfl
      (by decide) (fun x hx => by simp [envLookup, hx]) (fun _ => Iff.rfl)
  · exact (diff_single_change _ _ "" "" "" "" "json").2.2.2.1
      (fun _ => rfl) (by decide) (by decide)
      (fun x hx => by simp [hx])
  · exact (diff_single_change _ _ "" "" "" "" "").2.2.2.2
      (fun _ => rfl) (fun x hx => by simp at hx; simp [hx])

end FlakyFence
